import Mathlib

/-!
Verification of the IOCP handle service (detail/win_iocp_handle_service.hpp).

Shallow embedding conventions:
* Definitions whose doc comment cites source lines are translated from the
  header file itself.
* Definitions whose doc comment starts with `Modelled from the spec:` embed
  repository code that is only declared in the header (its `.ipp` bodies,
  the error taxonomy of asio/error.hpp, the buffer-sequence adapter and the
  demuxer contract); they follow the specification's wording.
* Imperative effects (deallocation, continuation upcalls) are embedded as
  explicit event lists so that ordering and multiplicity are provable.
-/

set_option autoImplicit false

namespace AsioIocp

/-- Modelled from the spec: the portable error taxonomy surfaced to callers
(`Eof`, `OperationAborted`, `NotSupported`, `AlreadyOpen`, pass-through
native codes); asio/error.hpp is not part of the given sources.
`associationFailed` is the spec's name for a rejected completion-queue
registration and `success` is the zero error code. -/
inductive ErrorCode where
  | success
  | eof
  | operationAborted
  | notSupported
  | alreadyOpen
  | associationFailed
  | badDescriptor
  | native (code : Nat)
  deriving DecidableEq, Repr

/-- The native Windows end-of-file error code checked by
`read_op::do_complete` (source line 255). -/
def ERROR_HANDLE_EOF : Nat := 38

/-- The error-code mapping performed at source lines 254-258: a native
`ERROR_HANDLE_EOF` value becomes the portable `eof`; every other code is
passed through unchanged. -/
def mapEofToPortable (ec : ErrorCode) : ErrorCode :=
  if ec = ErrorCode.native ERROR_HANDLE_EOF then ErrorCode.eof else ec

/-- The sentinel "not open" native handle value (Windows
`INVALID_HANDLE_VALUE`, i.e. `(HANDLE)-1`). -/
def INVALID_HANDLE_VALUE : Int := -1

/-- The marker value `~DWORD(0)` recorded in
`safe_cancellation_thread_id_` once asynchronous operations have been
started from more than one thread (source lines 65-69). -/
def twoThreadsMarker : Nat := 4294967295

/-- The handle state record `implementation_type` (source lines 46-74):
the native handle, the cancellation-thread marker, and the intrusive
live-handle list links. -/
structure ImplementationType where
  handle_ : Int
  safe_cancellation_thread_id_ : Nat
  next_ : Nat
  prev_ : Nat
  deriving DecidableEq, Repr

/-- The default constructor of `implementation_type` (source lines 50-56):
invalid handle, marker `0` (no asynchronous operation started yet), null
list links. -/
def initImpl : ImplementationType :=
  { handle_ := INVALID_HANDLE_VALUE
    safe_cancellation_thread_id_ := 0
    next_ := 0
    prev_ := 0 }

/-- `win_iocp_handle_service::is_open` (source lines 92-95): the stored
native handle differs from the sentinel. A pure query on the record. -/
def is_open (impl : ImplementationType) : Bool :=
  impl.handle_ != INVALID_HANDLE_VALUE

/-- Modelled from the spec: `update_cancellation_thread_id` (declared at
source line 354, body not in the given sources). On the first asynchronous
start the issuing thread's identity is recorded; a later start from a
different thread downgrades the marker to the permanent multi-thread
value. -/
def update_cancellation_thread_id (impl : ImplementationType) (tid : Nat) :
    ImplementationType :=
  if impl.safe_cancellation_thread_id_ = 0 then
    { impl with safe_cancellation_thread_id_ := tid }
  else if impl.safe_cancellation_thread_id_ = tid then
    impl
  else
    { impl with safe_cancellation_thread_id_ := twoThreadsMarker }

/-- Modelled from the spec: `cancel` (declared at source lines 107-109,
body not in the given sources). Cancellation fails with `NotSupported`
when the cancellation-thread marker is in the multi-thread state and
otherwise reports success, whether or not anything was pending. -/
def cancel (impl : ImplementationType) : ErrorCode :=
  if impl.safe_cancellation_thread_id_ = twoThreadsMarker then
    ErrorCode.notSupported
  else
    ErrorCode.success

/-- Modelled from the spec: `assign` (declared at source lines 87-89, body
not in the given sources). Assigning to an already-open record fails with
`AlreadyOpen` and changes nothing; otherwise the native handle is
registered with the completion queue (outcome `regOk`) and stored on
success, failing with `AssociationFailed` on a rejected registration. -/
def assign (impl : ImplementationType) (nativeHandle : Int) (regOk : Bool) :
    ImplementationType × ErrorCode :=
  if is_open impl then
    (impl, ErrorCode.alreadyOpen)
  else if regOk then
    ({ impl with handle_ := nativeHandle }, ErrorCode.success)
  else
    (impl, ErrorCode.associationFailed)

/-- Modelled from the spec: `close` (declared at source lines 98-99, body
not in the given sources). Closing an open record resets it to the
unopened state; closing an already-closed record succeeds trivially. -/
def close (impl : ImplementationType) : ImplementationType × ErrorCode :=
  if is_open impl then
    ({ impl with
        handle_ := INVALID_HANDLE_VALUE
        safe_cancellation_thread_id_ := 0 },
      ErrorCode.success)
  else
    (impl, ErrorCode.success)

/-- One contiguous memory region of a buffer sequence: base address and
length, contents opaque. -/
structure BufferDesc where
  base : Nat
  len : Nat
  deriving DecidableEq, Repr

/-- Modelled from the spec: `buffer_sequence_adapter::first` (the adapter
header is not in the given sources) — the first non-empty region of the
sequence, or an empty region when there is none. -/
def bufferFirst : List BufferDesc → BufferDesc
  | [] => { base := 0, len := 0 }
  | b :: rest => if b.len ≠ 0 then b else bufferFirst rest

/-- Modelled from the spec: `do_write` (declared at source lines 334-336,
body not in the given sources) — a blocking native write on
`(impl, offset, buffer)` whose kernel outcome is the `nativeOutcome`
parameter; the private wait helper translates an end-of-file condition to
the portable `Eof` before returning. -/
def do_write (impl : ImplementationType) (offset : Nat) (buffer : BufferDesc)
    (nativeOutcome : ErrorCode × Nat) : ErrorCode × Nat :=
  (mapEofToPortable nativeOutcome.1, nativeOutcome.2)

/-- Modelled from the spec: `do_read` (declared at source lines 344-346,
body not in the given sources) — a blocking native read whose kernel
outcome is the `nativeOutcome` parameter, end-of-file translated to the
portable `Eof`. -/
def do_read (impl : ImplementationType) (offset : Nat) (buffer : BufferDesc)
    (nativeOutcome : ErrorCode × Nat) : ErrorCode × Nat :=
  (mapEofToPortable nativeOutcome.1, nativeOutcome.2)

/-- `write_some_at` (source lines 121-130): adapt the sequence to its
first region and perform the synchronous write helper. -/
def write_some_at (impl : ImplementationType) (offset : Nat)
    (buffers : List BufferDesc) (nativeOutcome : ErrorCode × Nat) :
    ErrorCode × Nat :=
  do_write impl offset (bufferFirst buffers) nativeOutcome

/-- `write_some` (source lines 112-117): delegates to `write_some_at` at
offset `0`. -/
def write_some (impl : ImplementationType) (buffers : List BufferDesc)
    (nativeOutcome : ErrorCode × Nat) : ErrorCode × Nat :=
  write_some_at impl 0 buffers nativeOutcome

/-- `read_some_at` (source lines 215-224): adapt the sequence to its first
region and perform the synchronous read helper. -/
def read_some_at (impl : ImplementationType) (offset : Nat)
    (buffers : List BufferDesc) (nativeOutcome : ErrorCode × Nat) :
    ErrorCode × Nat :=
  do_read impl offset (bufferFirst buffers) nativeOutcome

/-- `read_some` (source lines 207-212): delegates to `read_some_at` at
offset `0`. -/
def read_some (impl : ImplementationType) (buffers : List BufferDesc)
    (nativeOutcome : ErrorCode × Nat) : ErrorCode × Nat :=
  read_some_at impl 0 buffers nativeOutcome

/-- The native asynchronous request issued against the demuxer: the
offset, the adapted first region and the direction. -/
structure StartRequest where
  offset : Nat
  buffer : BufferDesc
  isRead : Bool
  deriving DecidableEq, Repr

/-- The operation object allocated by the async wrappers: it closes over
the whole buffer sequence and the user continuation (continuation values
are opaque, represented by a `Nat` tag). -/
structure PendingOp where
  isRead : Bool
  buffers : List BufferDesc
  handler : Nat
  deriving DecidableEq, Repr

/-- Modelled from the spec: `start_write_op` (declared at source lines
339-341, body not in the given sources) — updates the cancellation-thread
marker for the issuing thread and issues the native asynchronous write
request. -/
def start_write_op (impl : ImplementationType) (tid : Nat) (offset : Nat)
    (buffer : BufferDesc) : ImplementationType × StartRequest :=
  (update_cancellation_thread_id impl tid,
    { offset := offset, buffer := buffer, isRead := false })

/-- Modelled from the spec: `start_read_op` (declared at source lines
349-351, body not in the given sources) — updates the cancellation-thread
marker and issues the native asynchronous read request. -/
def start_read_op (impl : ImplementationType) (tid : Nat) (offset : Nat)
    (buffer : BufferDesc) : ImplementationType × StartRequest :=
  (update_cancellation_thread_id impl tid,
    { offset := offset, buffer := buffer, isRead := true })

/-- `async_write_some_at` (source lines 190-204): allocate a `write_op`
wrapping the buffers and the continuation, then start the write with the
sequence's first region. -/
def async_write_some_at (impl : ImplementationType) (tid : Nat)
    (offset : Nat) (buffers : List BufferDesc) (handler : Nat) :
    ImplementationType × PendingOp × StartRequest :=
  let s := start_write_op impl tid offset (bufferFirst buffers)
  (s.1, { isRead := false, buffers := buffers, handler := handler }, s.2)

/-- `async_write_some` (source lines 181-186): delegates to
`async_write_some_at` at offset `0`. -/
def async_write_some (impl : ImplementationType) (tid : Nat)
    (buffers : List BufferDesc) (handler : Nat) :
    ImplementationType × PendingOp × StartRequest :=
  async_write_some_at impl tid 0 buffers handler

/-- `async_read_some_at` (source lines 291-305): allocate a `read_op`
wrapping the buffers and the continuation, then start the read with the
sequence's first region. -/
def async_read_some_at (impl : ImplementationType) (tid : Nat)
    (offset : Nat) (buffers : List BufferDesc) (handler : Nat) :
    ImplementationType × PendingOp × StartRequest :=
  let s := start_read_op impl tid offset (bufferFirst buffers)
  (s.1, { isRead := true, buffers := buffers, handler := handler }, s.2)

/-- `async_read_some` (source lines 281-286): delegates to
`async_read_some_at` at offset `0`. -/
def async_read_some (impl : ImplementationType) (tid : Nat)
    (buffers : List BufferDesc) (handler : Nat) :
    ImplementationType × PendingOp × StartRequest :=
  async_read_some_at impl tid 0 buffers handler

/-- Observable effects of a completion function: releasing the combined
operation-plus-continuation allocation, and invoking the user
continuation with its two arguments. -/
inductive CompletionEvent where
  | deallocate
  | invokeContinuation (ec : ErrorCode) (bytes : Nat)
  deriving DecidableEq, Repr

/-- `read_op::do_complete` (source lines 237-272) as its ordered effect
sequence. The `handler_ptr` takes ownership of the allocation on entry;
with a non-null owner the native end-of-file code is mapped to `eof`, a
copy of the continuation is bound, `ptr.reset()` releases the memory and
the copy is invoked; with a null owner the `handler_ptr` destructor
releases the memory and no upcall is made. -/
def read_op_do_complete (owner : Option Nat) (ec : ErrorCode) (bytes : Nat) :
    List CompletionEvent :=
  match owner with
  | some _ =>
    [CompletionEvent.deallocate,
      CompletionEvent.invokeContinuation (mapEofToPortable ec) bytes]
  | none => [CompletionEvent.deallocate]

/-- `write_op::do_complete` (source lines 143-172) as its ordered effect
sequence: identical to the read completion except that the error code is
passed through without any mapping. -/
def write_op_do_complete (owner : Option Nat) (ec : ErrorCode) (bytes : Nat) :
    List CompletionEvent :=
  match owner with
  | some _ =>
    [CompletionEvent.deallocate, CompletionEvent.invokeContinuation ec bytes]
  | none => [CompletionEvent.deallocate]

/-- Number of deallocation events in an effect sequence. -/
def countDealloc : List CompletionEvent → Nat
  | [] => 0
  | CompletionEvent.deallocate :: es => countDealloc es + 1
  | _ :: es => countDealloc es

/-- Number of continuation invocations in an effect sequence. -/
def countUpcall : List CompletionEvent → Nat
  | [] => 0
  | CompletionEvent.invokeContinuation _ _ :: es => countUpcall es + 1
  | _ :: es => countUpcall es

/-- The arguments of the continuation invocations of an effect sequence,
in order. -/
def upcallsOf : List CompletionEvent → List (ErrorCode × Nat)
  | [] => []
  | CompletionEvent.invokeContinuation ec b :: es => (ec, b) :: upcallsOf es
  | _ :: es => upcallsOf es

/-- True when every continuation invocation in the sequence is preceded
by a deallocation; `seen` records whether a deallocation occurred
already. -/
def deallocBeforeEveryUpcall (seen : Bool) : List CompletionEvent → Bool
  | [] => true
  | CompletionEvent.deallocate :: es => deallocBeforeEveryUpcall true es
  | CompletionEvent.invokeContinuation _ _ :: es =>
    seen && deallocBeforeEveryUpcall seen es

/-- One service call applied to a handle state record: an `assign` with a
given native handle and completion-queue registration outcome, a `close`,
a `cancel` request, or an asynchronous start from a given thread. -/
inductive HEvent where
  | assignEv (nativeHandle : Int) (regOk : Bool)
  | closeEv
  | cancelEv
  | asyncStartEv (tid : Nat)
  deriving DecidableEq, Repr

/-- State transition of one service call on the handle record, assembled
from `assign`, `close`, `cancel` and the cancellation-marker update. -/
def hstep (impl : ImplementationType) : HEvent → ImplementationType
  | HEvent.assignEv h regOk => (assign impl h regOk).1
  | HEvent.closeEv => (close impl).1
  | HEvent.cancelEv => impl
  | HEvent.asyncStartEv tid => update_cancellation_thread_id impl tid

/-- Error code returned by one service call on the handle record. -/
def hresult (impl : ImplementationType) : HEvent → ErrorCode
  | HEvent.assignEv h regOk => (assign impl h regOk).2
  | HEvent.closeEv => (close impl).2
  | HEvent.cancelEv => cancel impl
  | HEvent.asyncStartEv _ => ErrorCode.success

/-- The handle state after running a whole call trace. -/
def runImpl (impl : ImplementationType) (tr : List HEvent) :
    ImplementationType :=
  tr.foldl hstep impl

/-- The error codes returned by the successive calls of a trace. -/
def runResults (impl : ImplementationType) : List HEvent → List ErrorCode
  | [] => []
  | e :: tr => hresult impl e :: runResults (hstep impl e) tr

/-- True when every `assign` of a trace carries a valid (non-sentinel)
native handle, as real native handles do. -/
def validAssigns : List HEvent → Bool
  | [] => true
  | HEvent.assignEv h _ :: tr =>
    (h != INVALID_HANDLE_VALUE) && validAssigns tr
  | _ :: tr => validAssigns tr

/-- One step of the specification's open/closed bookkeeping over the
trace of calls paired with their returned codes: a successful `assign`
makes the handle open, a `close` makes it closed, every other call leaves
it unchanged. -/
def specOpenStep (f : Bool) : HEvent × ErrorCode → Bool
  | (HEvent.assignEv _ _, r) => f || decide (r = ErrorCode.success)
  | (HEvent.closeEv, _) => false
  | (_, _) => f

/-- The specification's open/closed verdict for a whole trace: true iff
some `assign` returned success and no `close` occurred after it. -/
def specOpenTrace (impl : ImplementationType) (tr : List HEvent) : Bool :=
  (tr.zip (runResults impl tr)).foldl specOpenStep false

/-- The claim's literal reading, scanned from the latest call backwards:
true iff the most recent `assign` of the trace returned success and no
`close` occurred after it. -/
def lastAssignRev : List (HEvent × ErrorCode) → Bool
  | [] => false
  | (HEvent.assignEv _ _, r) :: _ => decide (r = ErrorCode.success)
  | (HEvent.closeEv, _) :: _ => false
  | _ :: rest => lastAssignRev rest

/-- The claim's literal reading applied to a trace of calls on an
initially unopened record. -/
def lastAssignOkNoClose (impl : ImplementationType) (tr : List HEvent) :
    Bool :=
  lastAssignRev ((tr.zip (runResults impl tr)).reverse)

/-- A trace assigning a valid handle and then assigning again: the second
`assign` fails with `AlreadyOpen` while the handle stays open. -/
def doubleAssignTrace : List HEvent :=
  [HEvent.assignEv 5 true, HEvent.assignEv 6 true]

/-- A small concrete trace used to instantiate the lifecycle theorems. -/
def witnessTrace : List HEvent :=
  [HEvent.assignEv 5 true, HEvent.asyncStartEv 11, HEvent.closeEv]

/-- A handle record holding a valid native handle, used to instantiate
the `assign` contract. -/
def openImpl : ImplementationType := { initImpl with handle_ := 3 }

/-- The instants of the combined operation-plus-continuation allocation's
life: construction of the owning wrapper over the raw allocation, release
of the wrapper on kernel acceptance of the request, deallocation by the
wrapper when issuance fails before acceptance, deallocation inside
the completion function, and the continuation upcall. -/
inductive LifeEvent where
  | allocate
  | kernelAccept
  | issueFailDealloc
  | completeDealloc
  | upcall (ec : ErrorCode) (bytes : Nat)
  deriving DecidableEq, Repr

/-- Reinterpret a completion effect sequence as allocation-life
events. -/
def completionLife : List CompletionEvent → List LifeEvent
  | [] => []
  | CompletionEvent.deallocate :: es => LifeEvent.completeDealloc :: completionLife es
  | CompletionEvent.invokeContinuation ec b :: es =>
    LifeEvent.upcall ec b :: completionLife es

/-- The allocation-life trace of one asynchronous operation, assembled
from `async_read_some_at`/`async_write_some_at` (source lines 190-204 and
291-305: two-phase construct, start, release) and the corresponding
`do_complete` effects; `accepted` is the spec-modelled outcome of kernel
issuance (when issuance fails before acceptance the wrapper deallocates
immediately and no completion is ever delivered). -/
def opLifecycle (isRead accepted : Bool) (owner : Option Nat)
    (ec : ErrorCode) (bytes : Nat) : List LifeEvent :=
  LifeEvent.allocate ::
    (if accepted then
      LifeEvent.kernelAccept ::
        completionLife
          ((if isRead then read_op_do_complete else write_op_do_complete)
            owner ec bytes)
    else
      [LifeEvent.issueFailDealloc])

/-- True when the prefix contains the wrapper-construction instant. -/
def hasAlloc : List LifeEvent → Bool
  | [] => false
  | LifeEvent.allocate :: _ => true
  | _ :: es => hasAlloc es

/-- True when the prefix contains the kernel-acceptance instant. -/
def hasAccept : List LifeEvent → Bool
  | [] => false
  | LifeEvent.kernelAccept :: _ => true
  | _ :: es => hasAccept es

/-- True when the prefix contains the failed-issuance deallocation. -/
def hasFailDealloc : List LifeEvent → Bool
  | [] => false
  | LifeEvent.issueFailDealloc :: _ => true
  | _ :: es => hasFailDealloc es

/-- True when the prefix contains the completion-side deallocation. -/
def hasCompleteDealloc : List LifeEvent → Bool
  | [] => false
  | LifeEvent.completeDealloc :: _ => true
  | _ :: es => hasCompleteDealloc es

/-- The issuing wrapper owns the allocation: it has been constructed and
neither released to the pending operation nor used to deallocate. -/
def wrapperOwns (p : List LifeEvent) : Bool :=
  hasAlloc p && !hasAccept p && !hasFailDealloc p

/-- The kernel-pending operation owns the allocation: ownership was
released to it and the completion function has not freed it yet. -/
def pendingOwns (p : List LifeEvent) : Bool :=
  hasAccept p && !hasCompleteDealloc p

/-- The allocation has already been freed, by either deallocation
path. -/
def freedAlloc (p : List LifeEvent) : Bool :=
  hasFailDealloc p || hasCompleteDealloc p

/-- How many of the three parties own the allocation after a given
prefix of its life. -/
def ownersCount (p : List LifeEvent) : Nat :=
  (wrapperOwns p).toNat + (pendingOwns p).toNat + (freedAlloc p).toNat

/-- Modelled from the spec: the demuxer boundary contract. A system
event is either the issuance of a fresh asynchronous operation
(identified by its address, here a `Nat` key) or the delivery of that
operation's single completion: the demuxer invokes
`complete(owner_or_null, error, bytes_transferred)` once per outstanding
operation, with a null owner when the dispatcher is shutting down. -/
inductive SysEvent where
  | issue (op : Nat)
  | deliver (op : Nat) (isRead : Bool) (owner : Option Nat) (ec : ErrorCode)
      (bytes : Nat)
  deriving DecidableEq, Repr

/-- Demuxer bookkeeping, one status per operation key: `0` never issued,
`1` issued and pending, `2` completion delivered. -/
def demuxInit : Nat → Nat := fun _ => 0

/-- Enabledness of a system event: an operation is issued at a fresh key
and its completion is delivered exactly when it is pending. -/
def stepOk (s : Nat → Nat) : SysEvent → Bool
  | SysEvent.issue op => s op == 0
  | SysEvent.deliver op _ _ _ _ => s op == 1

/-- Status update of a system event. -/
def stepSt (s : Nat → Nat) : SysEvent → Nat → Nat
  | SysEvent.issue op => fun x => if x = op then 1 else s x
  | SysEvent.deliver op _ _ _ _ => fun x => if x = op then 2 else s x

/-- A trace is valid from a status map when every event is enabled in
turn: this is exactly the demuxer's drain discipline (issue once,
deliver once while pending). -/
def validFrom (s : Nat → Nat) : List SysEvent → Bool
  | [] => true
  | e :: tr => stepOk s e && validFrom (stepSt s e) tr

/-- The status map after a trace. -/
def runSt (s : Nat → Nat) : List SysEvent → Nat → Nat
  | [] => s
  | e :: tr => runSt (stepSt s e) tr

/-- Recogniser for the issuance of a given operation. -/
def isIssue (op : Nat) : SysEvent → Bool
  | SysEvent.issue o => o == op
  | _ => false

/-- Recogniser for a completion delivery of a given operation. -/
def isDeliver (op : Nat) : SysEvent → Bool
  | SysEvent.deliver o _ _ _ _ => o == op
  | _ => false

/-- Recogniser for a completion delivery of a given operation carrying a
non-null dispatcher owner. -/
def isOwnedDeliver (op : Nat) : SysEvent → Bool
  | SysEvent.deliver o _ owner _ _ => (o == op) && owner.isSome
  | _ => false

/-- Number of issuances of an operation in a trace. -/
def issueCount (op : Nat) (tr : List SysEvent) : Nat :=
  tr.countP (isIssue op)

/-- Number of completion-function invocations of an operation in a
trace: each delivery invokes the operation's `do_complete` once. -/
def deliverCount (op : Nat) (tr : List SysEvent) : Nat :=
  tr.countP (isDeliver op)

/-- Number of deliveries of an operation carrying a non-null owner. -/
def ownedDeliverCount (op : Nat) (tr : List SysEvent) : Nat :=
  tr.countP (isOwnedDeliver op)

/-- Continuation upcalls an event contributes for a given operation: the
upcalls of the effect sequence of the corresponding `do_complete`. -/
def eventUpcalls (op : Nat) : SysEvent → Nat
  | SysEvent.deliver o isRead owner ec b =>
    if o = op then
      countUpcall
        ((if isRead then read_op_do_complete else write_op_do_complete)
          owner ec b)
    else 0
  | _ => 0

/-- Total continuation upcalls of an operation over a trace. -/
def contUpcalls (op : Nat) (tr : List SysEvent) : Nat :=
  (tr.map (eventUpcalls op)).sum

/-- A valid drained trace delivering the completion of operation `7`
with a null owner, as the dispatcher does during shutdown. -/
def shutdownTrace : List SysEvent :=
  [SysEvent.issue 7, SysEvent.deliver 7 true none ErrorCode.success 0]

/-- A valid drained trace delivering the completion of operation `3`
with a non-null owner. -/
def demoTrace : List SysEvent :=
  [SysEvent.issue 3,
    SysEvent.deliver 3 true (some 0) ErrorCode.operationAborted 0]

end AsioIocp

namespace AsioIocp

/-- C2: a completion delivered with a null dispatcher owner releases the
combined allocation exactly once and performs no continuation upcall, for
both `read_op::do_complete` and `write_op::do_complete`; with any owner
the allocation is released exactly once and the continuation upcall
happens exactly when the owner is non-null. -/
theorem null_owner_completion_frees_without_upcall :
    ∀ (owner : Option Nat) (ec : ErrorCode) (b : Nat),
      read_op_do_complete none ec b = [CompletionEvent.deallocate]
      ∧ write_op_do_complete none ec b = [CompletionEvent.deallocate]
      ∧ countDealloc (read_op_do_complete owner ec b) = 1
      ∧ countDealloc (write_op_do_complete owner ec b) = 1
      ∧ countUpcall (read_op_do_complete owner ec b)
          = (if owner.isSome then 1 else 0)
      ∧ countUpcall (write_op_do_complete owner ec b)
          = (if owner.isSome then 1 else 0) := by
  intro owner ec b
  cases owner <;>
    exact ⟨rfl, rfl, rfl, rfl, rfl, rfl⟩

/-- C3: in every completion of an asynchronous read or write in which the
continuation is invoked, the allocation is released strictly before the
continuation executes; with a non-null owner the effect sequence is
exactly deallocation followed by the single invocation of the copied
continuation. -/
theorem dealloc_before_continuation :
    ∀ (owner : Option Nat) (d : Nat) (ec : ErrorCode) (b : Nat),
      deallocBeforeEveryUpcall false (read_op_do_complete owner ec b) = true
      ∧ deallocBeforeEveryUpcall false (write_op_do_complete owner ec b) = true
      ∧ read_op_do_complete (some d) ec b
          = [CompletionEvent.deallocate,
              CompletionEvent.invokeContinuation (mapEofToPortable ec) b]
      ∧ write_op_do_complete (some d) ec b
          = [CompletionEvent.deallocate,
              CompletionEvent.invokeContinuation ec b] := by
  intro owner d ec b
  cases owner <;>
    exact ⟨rfl, rfl, rfl, rfl⟩

/-- C4 counterexample: `write_op::do_complete` (source lines 143-172)
performs no error mapping, so an asynchronous write completion carrying
the native end-of-file code hands that unmapped native code to the user
continuation, contradicting the claim that every native end-of-file code
from a read or write is mapped to `Eof` before reaching any caller or
continuation. -/
theorem write_eof_unmapped_cex :
    (ErrorCode.native ERROR_HANDLE_EOF, 0)
        ∈ upcallsOf
          (write_op_do_complete (some 0) (ErrorCode.native ERROR_HANDLE_EOF) 0)
      ∧ ErrorCode.native ERROR_HANDLE_EOF ≠ ErrorCode.eof := by
  exact ⟨by decide, by decide⟩

/-- C4 amended: every native end-of-file code produced by a synchronous
read or write or by an asynchronous read is mapped to the portable `Eof`
before it reaches the caller or continuation, and reading past
end-of-file yields `Eof` with zero bytes transferred; the asynchronous
write completion passes the native code through unmapped. -/
theorem eof_mapped_for_reads_and_sync :
    ∀ (impl : ImplementationType) (offset : Nat) (buf : BufferDesc)
      (d : Nat) (ec : ErrorCode) (b : Nat),
      upcallsOf (read_op_do_complete (some d) ec b)
          = [(mapEofToPortable ec, b)]
      ∧ mapEofToPortable (ErrorCode.native ERROR_HANDLE_EOF) = ErrorCode.eof
      ∧ do_read impl offset buf (ErrorCode.native ERROR_HANDLE_EOF, b)
          = (ErrorCode.eof, b)
      ∧ do_write impl offset buf (ErrorCode.native ERROR_HANDLE_EOF, b)
          = (ErrorCode.eof, b)
      ∧ upcallsOf
            (read_op_do_complete (some d) (ErrorCode.native ERROR_HANDLE_EOF) 0)
          = [(ErrorCode.eof, 0)] := by
  intro impl offset buf d ec b
  refine ⟨rfl, rfl, ?_, ?_, rfl⟩
  · simp [do_read, mapEofToPortable]
  · simp [do_write, mapEofToPortable]

/-- C10: for every handle state, buffer sequence, native outcome, thread
and continuation, the non-offset operations are exactly the offset-taking
operations applied at offset `0`, synchronously and asynchronously. -/
theorem offset_zero_delegation :
    ∀ (impl : ImplementationType) (bufs : List BufferDesc)
      (nativeOutcome : ErrorCode × Nat) (tid : Nat) (handler : Nat),
      write_some impl bufs nativeOutcome
          = write_some_at impl 0 bufs nativeOutcome
      ∧ read_some impl bufs nativeOutcome
          = read_some_at impl 0 bufs nativeOutcome
      ∧ async_write_some impl tid bufs handler
          = async_write_some_at impl tid 0 bufs handler
      ∧ async_read_some impl tid bufs handler
          = async_read_some_at impl tid 0 bufs handler := by
  intro impl bufs nativeOutcome tid handler
  exact ⟨rfl, rfl, rfl, rfl⟩

/-- The cancellation-marker update never touches the stored native
handle, so it never changes whether the record is open. -/
theorem is_open_update_cancellation (impl : ImplementationType) (tid : Nat) :
    is_open (update_cancellation_thread_id impl tid) = is_open impl := by
  unfold update_cancellation_thread_id
  split
  · rfl
  · split <;> rfl

/-- Along any trace whose `assign` calls carry valid native handles, the
source's `is_open` agrees with the specification's open/closed
bookkeeping over the calls and their returned codes. -/
theorem runOpen (tr : List HEvent) :
    ∀ impl : ImplementationType, validAssigns tr = true →
      is_open (runImpl impl tr)
        = (tr.zip (runResults impl tr)).foldl specOpenStep (is_open impl) := by
  induction tr with
  | nil => intro impl _; rfl
  | cons e tr ih =>
    intro impl hv
    have hcons : runImpl impl (e :: tr) = runImpl (hstep impl e) tr := rfl
    have hz : (e :: tr).zip (runResults impl (e :: tr))
        = (e, hresult impl e) :: tr.zip (runResults (hstep impl e) tr) := rfl
    rw [hcons, hz, List.foldl_cons]
    have hv2 : validAssigns tr = true := by
      cases e <;> simp [validAssigns, Bool.and_eq_true] at hv <;>
        first | exact hv.2 | exact hv
    have hkey : specOpenStep (is_open impl) (e, hresult impl e)
        = is_open (hstep impl e) := by
      cases e with
      | assignEv h regOk =>
        have hhp : h ≠ INVALID_HANDLE_VALUE := by
          have hc := hv
          simp only [validAssigns, Bool.and_eq_true] at hc
          simpa using hc.1
        by_cases ho : is_open impl
        · have hopb : (impl.handle_ != INVALID_HANDLE_VALUE) = true := by
            simpa [is_open] using ho
          simp [specOpenStep, hstep, hresult, assign, is_open, hopb]
        · have hoe : impl.handle_ = INVALID_HANDLE_VALUE := by
            simpa [is_open] using ho
          cases regOk with
          | true =>
            simp [specOpenStep, hstep, hresult, assign, is_open, hoe, hhp]
          | false =>
            simp [specOpenStep, hstep, hresult, assign, is_open, hoe]
      | closeEv =>
        by_cases ho : is_open impl
        · have hop : impl.handle_ ≠ INVALID_HANDLE_VALUE := by
            simpa [is_open] using ho
          simp [specOpenStep, hstep, hresult, close, is_open, hop]
        · simp [specOpenStep, hstep, hresult, close, ho]
      | cancelEv => rfl
      | asyncStartEv tid =>
        simp [specOpenStep, hstep, hresult, is_open_update_cancellation]
    rw [hkey]
    exact ih (hstep impl e) hv2

/-- C5 counterexample: after assigning a valid handle and then assigning
again, the handle is still open although the most recent `assign` failed
with `AlreadyOpen`, so `is_open` is not equivalent to "the most recent
`assign` succeeded and no subsequent `close` occurred". -/
theorem is_open_most_recent_assign_cex :
    ¬ (is_open (runImpl initImpl doubleAssignTrace) = true
        ↔ lastAssignOkNoClose initImpl doubleAssignTrace = true) := by
  decide

/-- C5 amended: `is_open` is true iff the stored native handle differs
from the sentinel invalid value (a pure query), and along any trace of
calls on an initially unopened record whose assigned handles are valid,
`is_open` is true iff some `assign` succeeded with no subsequent
`close`. -/
theorem is_open_characterization :
    (∀ impl : ImplementationType,
        is_open impl = true ↔ impl.handle_ ≠ INVALID_HANDLE_VALUE)
    ∧ ∀ tr : List HEvent, validAssigns tr = true →
        is_open (runImpl initImpl tr) = specOpenTrace initImpl tr := by
  constructor
  · intro impl
    simp [is_open]
  · intro tr hv
    rw [runOpen tr initImpl hv]
    rfl

/-- Witness for the amended C5 claim at a concrete trace. -/
theorem is_open_characterization_witness :
    is_open (runImpl initImpl witnessTrace) = specOpenTrace initImpl witnessTrace :=
  is_open_characterization.2 witnessTrace (by decide)

/-- The cancellation marker of a record stays in the set `{0, t}` when
every asynchronous start of a trace is issued by the same thread `t`. -/
theorem marker_stays_single (t : Nat) :
    ∀ (tids : List Nat) (impl : ImplementationType),
      (∀ x ∈ tids, x = t) →
      (impl.safe_cancellation_thread_id_ = 0
        ∨ impl.safe_cancellation_thread_id_ = t) →
      ((tids.foldl update_cancellation_thread_id impl).safe_cancellation_thread_id_
          = 0
        ∨ (tids.foldl update_cancellation_thread_id impl).safe_cancellation_thread_id_
          = t) := by
  intro tids
  induction tids with
  | nil => intro impl _ hm; exact hm
  | cons x tids ih =>
    intro impl hall hm
    have hx : x = t := hall x (by simp)
    subst hx
    rw [List.foldl_cons]
    apply ih
    · intro y hy
      exact hall y (by simp [hy])
    · rcases hm with hm | hm
      · right
        simp [update_cancellation_thread_id, hm]
      · by_cases h0 : impl.safe_cancellation_thread_id_ = 0
        · right
          rw [h0] at hm
          simp [update_cancellation_thread_id, h0, ← hm]
        · right
          rw [update_cancellation_thread_id, if_neg h0, if_pos hm]
          exact hm

/-- C6: `cancel` on a record whose cancellation-thread marker is in the
multi-thread state fails with `NotSupported`; when every asynchronous
start was issued by one thread the marker never reaches that state and
`cancel` reports success (there is no pending-operation condition at
all); two starts from distinct threads drive the marker to the
multi-thread state, after which `cancel` fails with `NotSupported`. -/
theorem cancel_thread_safety :
    (∀ impl : ImplementationType,
        impl.safe_cancellation_thread_id_ = twoThreadsMarker →
        cancel impl = ErrorCode.notSupported)
    ∧ (∀ (tids : List Nat) (t : Nat),
        (∀ x ∈ tids, x = t) → t ≠ twoThreadsMarker →
        cancel (tids.foldl update_cancellation_thread_id initImpl)
          = ErrorCode.success)
    ∧ (∀ t1 t2 : Nat, t1 ≠ 0 → t2 ≠ t1 →
        cancel ([t1, t2].foldl update_cancellation_thread_id initImpl)
          = ErrorCode.notSupported) := by
  refine ⟨?_, ?_, ?_⟩
  · intro impl hm
    simp [cancel, hm]
  · intro tids t hall ht
    have hm := marker_stays_single t tids initImpl hall (Or.inl rfl)
    have ht2 : ¬ t = 4294967295 := by
      simpa [twoThreadsMarker] using ht
    rcases hm with hm | hm <;>
      simp [cancel, hm, ht2, twoThreadsMarker]
  · intro t1 t2 h1 h2
    have h2s : t1 ≠ t2 := fun hh => h2 hh.symm
    simp [cancel, update_cancellation_thread_id, initImpl, h1, h2s]

/-- Witness for C6 at concrete inputs: a marker in the multi-thread
state, two starts from one thread, and starts from two distinct
threads. -/
theorem cancel_thread_safety_witness :
    cancel { initImpl with safe_cancellation_thread_id_ := twoThreadsMarker }
        = ErrorCode.notSupported
    ∧ cancel ([5, 5].foldl update_cancellation_thread_id initImpl)
        = ErrorCode.success
    ∧ cancel ([1, 2].foldl update_cancellation_thread_id initImpl)
        = ErrorCode.notSupported :=
  ⟨cancel_thread_safety.1 _ rfl,
    cancel_thread_safety.2.1 [5, 5] 5 (by decide) (by decide),
    cancel_thread_safety.2.2 1 2 (by decide) (by decide)⟩

/-- C7: `assign` on a record already holding a valid native handle fails
with `AlreadyOpen` and leaves the whole record unchanged; on an unopened
record it stores the handle after a successful completion-queue
registration and fails with `AssociationFailed`, storing nothing, when
the registration is rejected. -/
theorem assign_contract :
    ∀ (impl : ImplementationType) (h : Int) (regOk : Bool),
      (is_open impl = true →
        assign impl h regOk = (impl, ErrorCode.alreadyOpen))
      ∧ (is_open impl = false → regOk = true →
        assign impl h regOk
          = ({ impl with handle_ := h }, ErrorCode.success))
      ∧ (is_open impl = false → regOk = false →
        assign impl h regOk = (impl, ErrorCode.associationFailed)) := by
  intro impl h regOk
  refine ⟨?_, ?_, ?_⟩
  · intro ho
    simp [assign, ho]
  · intro ho hr
    simp [assign, ho, hr]
  · intro ho hr
    simp [assign, ho, hr]

/-- Witness for C7 at concrete inputs: assigning to an open record fails
with `AlreadyOpen` leaving the record intact, and assigning to the
default-constructed record stores the handle. -/
theorem assign_contract_witness :
    assign openImpl 9 true = (openImpl, ErrorCode.alreadyOpen)
    ∧ assign initImpl 9 true
        = ({ initImpl with handle_ := 9 }, ErrorCode.success) :=
  ⟨(assign_contract openImpl 9 true).1 (by decide),
    (assign_contract initImpl 9 true).2.1 (by decide) rfl⟩

/-- C8: at every instant of an asynchronous operation's life (every
non-empty prefix of its allocation-life trace, for either direction,
either issuance outcome and any delivered completion), exactly one party
owns the combined operation-plus-continuation allocation: the issuing
wrapper until the kernel accepts the request, the pending operation until
the completion function frees it, and nobody afterwards — never zero
owners and never two. -/
theorem single_owner_invariant :
    ∀ (isRead accepted : Bool) (owner : Option Nat) (ec : ErrorCode)
      (bytes n : Nat), 1 ≤ n →
      ownersCount ((opLifecycle isRead accepted owner ec bytes).take n) = 1 := by
  intro isRead accepted owner ec bytes n hn
  rcases n with _ | _ | _ | _ | m
  · exact absurd hn (by decide)
  · cases isRead <;> cases accepted <;> cases owner <;> rfl
  · cases isRead <;> cases accepted <;> cases owner <;> rfl
  · cases isRead <;> cases accepted <;> cases owner <;> rfl
  · cases isRead <;> cases accepted <;> cases owner <;>
      rw [List.take_of_length_le (by
        simp [opLifecycle, completionLife, read_op_do_complete,
          write_op_do_complete]
        try omega)] <;> rfl

/-- Witness for C8 at a concrete instant: just after kernel acceptance
of an accepted asynchronous read. -/
theorem single_owner_invariant_witness :
    ownersCount ((opLifecycle true true (some 0) ErrorCode.success 0).take 2)
      = 1 :=
  single_owner_invariant true true (some 0) ErrorCode.success 0 2 (by decide)

/-- Status bookkeeping of the demuxer model: statuses only move forward
(`0` fresh, `1` pending, `2` delivered), a delivered status is absorbing,
and along any valid trace an operation is issued exactly once iff it
leaves the fresh status, and its completion function is invoked exactly
once iff it reaches the delivered status. -/
theorem demux_counts (tr : List SysEvent) :
    ∀ (s : Nat → Nat) (op : Nat), validFrom s tr = true →
      s op ≤ runSt s tr op
      ∧ (s op = 2 → runSt s tr op = 2)
      ∧ (s op ≤ 2 → runSt s tr op ≤ 2)
      ∧ issueCount op tr = (if s op = 0 ∧ 1 ≤ runSt s tr op then 1 else 0)
      ∧ deliverCount op tr
          = (if s op ≤ 1 ∧ runSt s tr op = 2 then 1 else 0) := by
  induction tr with
  | nil =>
    intro s op _
    refine ⟨le_refl _, fun h => h, fun h => h, ?_, ?_⟩
    · simp only [issueCount, List.countP_nil, runSt]
      split
      · omega
      · rfl
    · simp only [deliverCount, List.countP_nil, runSt]
      split
      · omega
      · rfl
  | cons e tr ih =>
    intro s op hv
    rw [validFrom, Bool.and_eq_true] at hv
    obtain ⟨hok, hvt⟩ := hv
    obtain ⟨M, A, B, I, D⟩ := ih (stepSt s e) op hvt
    have hrun : runSt s (e :: tr) op = runSt (stepSt s e) tr op := rfl
    cases e with
    | issue op2 =>
      simp only [stepOk, beq_iff_eq] at hok
      by_cases hop : op2 = op
      · subst hop
        have hs : stepSt s (SysEvent.issue op2) op2 = 1 := by
          simp [stepSt]
        rw [hs] at M A B I D
        have I0 : issueCount op2 tr = 0 := by
          rw [I, if_neg]
          rintro ⟨hc, -⟩
          exact absurd hc (by decide)
        have hic : issueCount op2 (SysEvent.issue op2 :: tr)
            = issueCount op2 tr + 1 := by
          simp [issueCount, List.countP_cons, isIssue]
        have hdc : deliverCount op2 (SysEvent.issue op2 :: tr)
            = deliverCount op2 tr := by
          simp [deliverCount, List.countP_cons, isDeliver]
        refine ⟨?_, ?_, ?_, ?_, ?_⟩
        · rw [hrun]
          omega
        · intro h2
          omega
        · intro h2
          rw [hrun]
          exact B (by omega)
        · rw [hrun, hic, I0]
          have hcond : s op2 = 0
              ∧ 1 ≤ runSt (stepSt s (SysEvent.issue op2)) tr op2 := ⟨hok, M⟩
          rw [if_pos hcond]
        · rw [hrun, hdc, D]
          by_cases hF : runSt (stepSt s (SysEvent.issue op2)) tr op2 = 2
          · have c1 : (1:Nat) ≤ 1
                ∧ runSt (stepSt s (SysEvent.issue op2)) tr op2 = 2 :=
              ⟨le_refl 1, hF⟩
            have c2 : s op2 ≤ 1
                ∧ runSt (stepSt s (SysEvent.issue op2)) tr op2 = 2 :=
              ⟨by omega, hF⟩
            rw [if_pos c1, if_pos c2]
          · have d1 : ¬ ((1:Nat) ≤ 1
                ∧ runSt (stepSt s (SysEvent.issue op2)) tr op2 = 2) :=
              fun hc => hF hc.2
            have d2 : ¬ (s op2 ≤ 1
                ∧ runSt (stepSt s (SysEvent.issue op2)) tr op2 = 2) :=
              fun hc => hF hc.2
            rw [if_neg d1, if_neg d2]
      · have hop2 : ¬ op = op2 := fun hc => hop hc.symm
        have hs : stepSt s (SysEvent.issue op2) op = s op := by
          simp [stepSt, hop2]
        rw [hs] at M A B I D
        have hic : issueCount op (SysEvent.issue op2 :: tr)
            = issueCount op tr := by
          simp [issueCount, List.countP_cons, isIssue, hop]
        have hdc : deliverCount op (SysEvent.issue op2 :: tr)
            = deliverCount op tr := by
          simp [deliverCount, List.countP_cons, isDeliver]
        refine ⟨?_, ?_, ?_, ?_, ?_⟩
        · rw [hrun]
          exact M
        · intro h2
          rw [hrun]
          exact A h2
        · intro h2
          rw [hrun]
          exact B h2
        · rw [hrun, hic]
          exact I
        · rw [hrun, hdc]
          exact D
    | deliver op2 isRead owner ec b =>
      simp only [stepOk, beq_iff_eq] at hok
      by_cases hop : op2 = op
      · subst hop
        have hs : stepSt s (SysEvent.deliver op2 isRead owner ec b) op2 = 2 := by
          simp [stepSt]
        rw [hs] at M A B I D
        have A2 : runSt (stepSt s (SysEvent.deliver op2 isRead owner ec b)) tr op2
            = 2 := A rfl
        have I0 : issueCount op2 tr = 0 := by
          rw [I, if_neg]
          rintro ⟨hc, -⟩
          exact absurd hc (by decide)
        have D0 : deliverCount op2 tr = 0 := by
          rw [D, if_neg]
          rintro ⟨hc, -⟩
          exact absurd hc (by decide)
        have hic : issueCount op2 (SysEvent.deliver op2 isRead owner ec b :: tr)
            = issueCount op2 tr := by
          simp [issueCount, List.countP_cons, isIssue]
        have hdc : deliverCount op2 (SysEvent.deliver op2 isRead owner ec b :: tr)
            = deliverCount op2 tr + 1 := by
          simp [deliverCount, List.countP_cons, isDeliver]
        refine ⟨?_, ?_, ?_, ?_, ?_⟩
        · rw [hrun]
          omega
        · intro h2
          rw [hrun]
          exact A2
        · intro h2
          rw [hrun]
          omega
        · rw [hrun, hic, I0]
          have hcond : ¬ (s op2 = 0
              ∧ 1 ≤ runSt (stepSt s (SysEvent.deliver op2 isRead owner ec b)) tr op2) := by
            rintro ⟨hc, -⟩
            omega
          rw [if_neg hcond]
        · rw [hrun, hdc, D0]
          have hcond : s op2 ≤ 1
              ∧ runSt (stepSt s (SysEvent.deliver op2 isRead owner ec b)) tr op2 = 2 :=
            ⟨by omega, A2⟩
          rw [if_pos hcond]
      · have hop2 : ¬ op = op2 := fun hc => hop hc.symm
        have hs : stepSt s (SysEvent.deliver op2 isRead owner ec b) op = s op := by
          simp [stepSt, hop2]
        rw [hs] at M A B I D
        have hic : issueCount op (SysEvent.deliver op2 isRead owner ec b :: tr)
            = issueCount op tr := by
          simp [issueCount, List.countP_cons, isIssue]
        have hdc : deliverCount op (SysEvent.deliver op2 isRead owner ec b :: tr)
            = deliverCount op tr := by
          simp [deliverCount, List.countP_cons, isDeliver, hop]
        refine ⟨?_, ?_, ?_, ?_, ?_⟩
        · rw [hrun]
          exact M
        · intro h2
          rw [hrun]
          exact A h2
        · intro h2
          rw [hrun]
          exact B h2
        · rw [hrun, hic]
          exact I
        · rw [hrun, hdc]
          exact D

/-- A delivery contributes one continuation upcall exactly when it
carries a non-null owner: this is `do_complete`'s owner guard, for both
operation kinds. -/
theorem eventUpcalls_eq_owned (op : Nat) (e : SysEvent) :
    eventUpcalls op e = (isOwnedDeliver op e).toNat := by
  cases e with
  | issue o => rfl
  | deliver o isRead owner ec b =>
    by_cases hop : o = op
    · cases isRead <;> cases owner <;>
        simp [eventUpcalls, isOwnedDeliver, hop, read_op_do_complete,
          write_op_do_complete, countUpcall]
    · have hbe : (o == op) = false := by
        simp [hop]
      simp [eventUpcalls, isOwnedDeliver, hop, hbe]

/-- Over a whole trace, the continuation upcalls of an operation equal
its owned deliveries. -/
theorem contUpcalls_eq_ownedCount (op : Nat) (tr : List SysEvent) :
    contUpcalls op tr = ownedDeliverCount op tr := by
  induction tr with
  | nil => rfl
  | cons e tr ih =>
    have hct : contUpcalls op (e :: tr)
        = eventUpcalls op e + contUpcalls op tr := by
      simp [contUpcalls]
    have hoc : ownedDeliverCount op (e :: tr)
        = ownedDeliverCount op tr
            + (if isOwnedDeliver op e then 1 else 0) := by
      simp [ownedDeliverCount, List.countP_cons]
    rw [hct, hoc, ih, eventUpcalls_eq_owned]
    cases h : isOwnedDeliver op e <;> simp [h] <;> omega

/-- Owned deliveries are deliveries. -/
theorem ownedDeliver_le_deliver (op : Nat) (tr : List SysEvent) :
    ownedDeliverCount op tr ≤ deliverCount op tr := by
  apply List.countP_mono_left
  intro e _ h
  cases e with
  | issue o => simpa [isOwnedDeliver] using h
  | deliver o isRead owner ec b =>
    simp only [isOwnedDeliver, Bool.and_eq_true] at h
    simp [isDeliver, h.1]

/-- C1 counterexample: a valid drained trace in which the single
completion of an issued operation is delivered with a null dispatcher
owner (the service-shutdown path); the completion function runs, yet the
user continuation is invoked zero times, not exactly once. -/
theorem shutdown_completion_no_upcall_cex :
    validFrom demuxInit shutdownTrace = true
    ∧ SysEvent.issue 7 ∈ shutdownTrace
    ∧ runSt demuxInit shutdownTrace 7 = 2
    ∧ deliverCount 7 shutdownTrace = 1
    ∧ ¬ contUpcalls 7 shutdownTrace = 1 := by
  refine ⟨by decide, by decide, by decide, by decide, by decide⟩

/-- C1 amended: for every operation issued in a valid trace that the
demuxer has drained (the operation is no longer pending), the
operation's completion function is invoked exactly once; the user
continuation is invoked exactly as many times as the operation's
completion was delivered with a non-null owner, which is at most once —
exactly once on the normal and handle-close paths and zero times when
the delivery carries a null owner during service shutdown. -/
theorem async_op_completion_exactly_once (tr : List SysEvent) (op : Nat)
    (hv : validFrom demuxInit tr = true)
    (hi : SysEvent.issue op ∈ tr)
    (hdr : runSt demuxInit tr op ≠ 1) :
    deliverCount op tr = 1
    ∧ contUpcalls op tr = ownedDeliverCount op tr
    ∧ ownedDeliverCount op tr ≤ 1 := by
  obtain ⟨M, A, B, I, D⟩ := demux_counts tr demuxInit op hv
  have h0 : demuxInit op = 0 := rfl
  have hpos : 0 < issueCount op tr := by
    rw [issueCount]
    exact List.countP_pos_iff.mpr ⟨SysEvent.issue op, hi, by simp [isIssue]⟩
  have hF1 : 1 ≤ runSt demuxInit tr op := by
    by_contra hc
    rw [h0] at I
    rw [if_neg (fun hcc => hc hcc.2)] at I
    omega
  have hF2 : runSt demuxInit tr op ≤ 2 := B (by rw [h0]; omega)
  have hFeq : runSt demuxInit tr op = 2 := by omega
  have hdel : deliverCount op tr = 1 := by
    rw [D, if_pos ⟨by rw [h0]; omega, hFeq⟩]
  refine ⟨hdel, contUpcalls_eq_ownedCount op tr, ?_⟩
  calc ownedDeliverCount op tr ≤ deliverCount op tr :=
        ownedDeliver_le_deliver op tr
    _ = 1 := hdel

/-- Witness for the amended C1 claim at a concrete drained trace whose
single delivery carries a non-null owner. -/
theorem async_op_completion_exactly_once_witness :
    deliverCount 3 demoTrace = 1
    ∧ contUpcalls 3 demoTrace = ownedDeliverCount 3 demoTrace
    ∧ ownedDeliverCount 3 demoTrace ≤ 1 :=
  async_op_completion_exactly_once demoTrace 3 (by decide) (by decide)
    (by decide)

end AsioIocp
